import Mathlib

/-!
Verification of the decksmith card-rendering engine.

This file shallowly embeds the parts of the decksmith source that the
checked properties are about:

* `decksmith/macro.py` (`MacroResolver.resolve`) and
  `decksmith/deck_builder.py` (`DeckBuilder.resolve_macros`): the two
  copies of the `%column%` macro substitution over specification trees;
* `decksmith/utils.py` (`apply_anchor`);
* `decksmith/card_builder.py` (`_calculate_absolute_position`, the
  `render` element loop, `build`, `_draw_text`, and the `_filter_crop_*`
  image filters, which are duplicated in `decksmith/image_ops.py`);
* `decksmith/renderers/text.py` (`TextRenderer.render`);
* `decksmith/main.py` (the `build` CLI command) together with
  `DeckBuilder.build_deck`.

Python `str` values are modelled by Lean `String`; Python integers by
`Int`; machine-independent sizes by `Nat`.  Python string methods used by
the source (`str.strip`, `str.replace`) are re-implemented below as
structurally recursive functions so that all definitions evaluate on
concrete inputs.
-/

namespace Decksmith

/-! ### Python string primitives -/

/-- Python's `str.isspace` charset for the characters relevant to
`str.strip()` (space, tab, newline, carriage return, vertical tab,
form feed). -/
def pyIsSpace (c : Char) : Bool :=
  c = ' ' || c = '\t' || c = '\n' || c = '\x0d' || c = '\x0b' || c = '\x0c'

/-- Python's `str.strip()`: removes leading and trailing whitespace. -/
def pyStrip (s : String) : String :=
  String.mk (((s.data.dropWhile pyIsSpace).reverse.dropWhile pyIsSpace).reverse)

/-- Core of Python's `str.replace(pat, rep)` on character lists:
left-to-right, non-overlapping replacement of every occurrence of `pat`.
The `fuel` argument makes the recursion structural; `fuel = s.length`
suffices whenever `pat` is nonempty (every step consumes at least one
character of `s`). -/
def pyReplaceFuel (rep pat : List Char) : Nat → List Char → List Char
  | 0, s => s
  | _ + 1, [] => []
  | n + 1, c :: rest =>
    if pat ≠ [] ∧ pat.isPrefixOf (c :: rest) then
      rep ++ pyReplaceFuel rep pat n ((c :: rest).drop pat.length)
    else
      c :: pyReplaceFuel rep pat n rest

/-- Python's `str.replace(pat, rep)` (for the nonempty patterns
`"%column%"` used by the macro resolvers). -/
def pyReplace (s pat rep : String) : String :=
  String.mk (pyReplaceFuel rep.data pat.data s.data.length s.data)

/-! ### Specification trees

`Value` models the Python/YAML data reachable inside a card
specification and inside one CSV row: strings, integers, booleans,
`None`, lists and (insertion-ordered) dicts with string keys. -/

inductive Value where
  | vStr (s : String)
  | vInt (n : Int)
  | vBool (b : Bool)
  | vNull
  | vList (l : List Value)
  | vDict (d : List (String × Value))

/-- One CSV row, as produced by `row.to_dict()`: an insertion-ordered
mapping from column name to value. -/
abbrev Row := List (String × Value)

/-- Python's `str(value)` for the scalar values that occur in a data row
(spec §3: a `DataRow` maps column names to scalar values).  Lists and
dicts never occur in a row, so their rendering is irrelevant to the
properties below and is given a fixed placeholder. -/
def pyStr : Value → String
  | .vStr s => s
  | .vInt n => toString n
  | .vBool true => "True"
  | .vBool false => "False"
  | .vNull => "None"
  | .vList _ => "[...]"
  | .vDict _ => "{...}"

/-- The `f"%{key}%"` token built by both macro resolvers. -/
def macroToken (key : String) : String := "%" ++ key ++ "%"

/-! ### `decksmith/macro.py` — `MacroResolver.resolve` -/

namespace MacroResolver

/-- The first `for key in row` loop of `replace_in_value`: find the first
column whose `%key%` token equals the stripped string, returning its raw
value. -/
def findExact (row : Row) (stripped : String) : Option Value :=
  match row with
  | [] => none
  | (key, v) :: rest =>
    if stripped = macroToken key then some v else findExact rest stripped

/-- The second `for key, val in row.items()` loop of `replace_in_value`:
replace every `%key%` occurrence with `str(val)`, column by column. -/
def substituteAll (row : Row) (s : String) : String :=
  row.foldl (fun acc kv => pyReplace acc (macroToken kv.1) (pyStr kv.2)) s

mutual

/-- `macro.py` lines 25–44: the inner `replace_in_value` of
`MacroResolver.resolve`. -/
def replace_in_value (row : Row) : Value → Value
  | .vStr s =>
    match findExact row (pyStrip s) with
    | some v => v
    | none => .vStr (substituteAll row s)
  | .vInt n => .vInt n
  | .vBool b => .vBool b
  | .vNull => .vNull
  | .vList l => .vList (replaceInListAux row l)
  | .vDict d => .vDict (replaceInDictAux row d)

/-- The `[replace_in_value(item) for item in value]` comprehension. -/
def replaceInListAux (row : Row) : List Value → List Value
  | [] => []
  | v :: vs => replace_in_value row v :: replaceInListAux row vs

/-- The `{key: replace_in_value(item) for key, item in value.items()}`
comprehension. -/
def replaceInDictAux (row : Row) : List (String × Value) → List (String × Value)
  | [] => []
  | kv :: kvs => (kv.1, replace_in_value row kv.2) :: replaceInDictAux row kvs

end

/-- `MacroResolver.resolve(spec, row)`. -/
def resolve (spec : Value) (row : Row) : Value := replace_in_value row spec

end MacroResolver

/-! ### `decksmith/deck_builder.py` — `DeckBuilder.resolve_macros`
(a verbatim second copy of the resolver, embedded independently). -/

namespace DeckBuilder

/-- The first `for key in row` loop of `deck_builder.py`'s
`replace_in_value`. -/
def findExact (row : Row) (stripped : String) : Option Value :=
  match row with
  | [] => none
  | (key, v) :: rest =>
    if stripped = macroToken key then some v else findExact rest stripped

/-- The second `for key, val in row.items()` loop of `deck_builder.py`'s
`replace_in_value`. -/
def substituteAll (row : Row) (s : String) : String :=
  row.foldl (fun acc kv => pyReplace acc (macroToken kv.1) (pyStr kv.2)) s

mutual

/-- `deck_builder.py` lines 61–80: the inner `replace_in_value` of
`DeckBuilder.resolve_macros`. -/
def replace_in_value (row : Row) : Value → Value
  | .vStr s =>
    match findExact row (pyStrip s) with
    | some v => v
    | none => .vStr (substituteAll row s)
  | .vInt n => .vInt n
  | .vBool b => .vBool b
  | .vNull => .vNull
  | .vList l => .vList (replaceInListAux row l)
  | .vDict d => .vDict (replaceInDictAux row d)

/-- The `[replace_in_value(v) for v in value]` comprehension. -/
def replaceInListAux (row : Row) : List Value → List Value
  | [] => []
  | v :: vs => replace_in_value row v :: replaceInListAux row vs

/-- The `{k: replace_in_value(v) for k, v in value.items()}`
comprehension. -/
def replaceInDictAux (row : Row) : List (String × Value) → List (String × Value)
  | [] => []
  | kv :: kvs => (kv.1, replace_in_value row kv.2) :: replaceInDictAux row kvs

end

/-- `DeckBuilder.resolve_macros(spec, row)`. -/
def resolve_macros (spec : Value) (row : Row) : Value := replace_in_value row spec

end DeckBuilder

/-! ### `decksmith/utils.py` — `apply_anchor` -/

/-- A bounding box `(x1, y1, x2, y2)` in canvas coordinates. -/
abbrev BBox := Int × Int × Int × Int

/-- The `anchor_points` table of `apply_anchor`, for a box with top-left
corner `(px, py)`, width `w` and height `h`; the final membership test of
the source is the trailing error case.  Python `//` is floor division,
i.e. `Int.fdiv`. -/
def anchorPoint (px py w h : Int) (anchor : String) : Except String (Int × Int) :=
  if anchor = "top-left" then .ok (px, py)
  else if anchor = "top-center" then .ok (px + w.fdiv 2, py)
  else if anchor = "top-right" then .ok (px + w, py)
  else if anchor = "middle-left" then .ok (px, py + h.fdiv 2)
  else if anchor = "center" then .ok (px + w.fdiv 2, py + h.fdiv 2)
  else if anchor = "middle-right" then .ok (px + w, py + h.fdiv 2)
  else if anchor = "bottom-left" then .ok (px, py + h)
  else if anchor = "bottom-center" then .ok (px + w.fdiv 2, py + h)
  else if anchor = "bottom-right" then .ok (px + w, py + h)
  else .error ("Unknown anchor: " ++ anchor)

/-- The nine-name anchor vocabulary. -/
def anchorNames : List String :=
  ["top-left", "top-center", "top-right", "middle-left", "center",
   "middle-right", "bottom-left", "bottom-center", "bottom-right"]

/-- `utils.py` lines 35–75: `apply_anchor(size, anchor)`.  A 2-tuple is
`(width, height)` at origin `(0, 0)`; a 4-tuple is `(x1, y1, x2, y2)`;
anything else raises `ValueError`.  Exceptions are modelled by
`Except.error` carrying the message. -/
def apply_anchor (size : List Int) (anchor : String) : Except String (Int × Int) :=
  match size with
  | [w, h] => anchorPoint 0 0 w h anchor
  | [x1, y1, x2, y2] => anchorPoint x1 y1 (x2 - x1) (y2 - y1) anchor
  | _ => .error "Size must be a tuple of 2 or 4 integers."

/-! ### `decksmith/card_builder.py` — `_calculate_absolute_position` -/

/-- The `element_positions` mapping (element id → bounding box).  Python
dict keys are unique; lookup finds the entry with the given key. -/
abbrev Registry := List (String × BBox)

/-- Membership/lookup in `self.element_positions`. -/
def lookupId : Registry → String → Option BBox
  | [], _ => none
  | (k, b) :: rest, rid => if rid = k then some b else lookupId rest rid

/-- `self.element_positions[id] = bbox`: Python dict assignment (update
in place, or append a new entry). -/
def registryInsert : Registry → String → BBox → Registry
  | [], k, b => [(k, b)]
  | (k', b') :: rest, k, b =>
    if k = k' then (k, b) :: rest else (k', b') :: registryInsert rest k b

/-- `card_builder.py` lines 47–71: `_calculate_absolute_position`, over
the element's `relative_to` and `position` fields (`position` defaults to
`[0, 0]`).  Raised `ValueError`s — the missing reference, and any error
out of `apply_anchor` — are modelled by `Except.error`. -/
def calculate_absolute_position (positions : Registry)
    (relative_to : Option (String × String)) (position : Option (Int × Int)) :
    Except String (Int × Int) :=
  match relative_to with
  | none => .ok (position.getD (0, 0))
  | some (rid, anchor) =>
    match lookupId positions rid with
    | none =>
      .error ("Element with id '" ++ rid ++ "' not found for relative positioning.")
    | some (x1, y1, x2, y2) =>
      match apply_anchor [x1, y1, x2, y2] anchor with
      | .error e => .error e
      | .ok (ax, ay) =>
        .ok (ax + (position.getD (0, 0)).1, ay + (position.getD (0, 0)).2)

/-! ### `decksmith/card_builder.py` — the `render` element loop and `build`

The individual `_draw_*` methods perform PIL side effects that live
outside a shallow embedding, so the loop is stated for an arbitrary
drawing semantics `draw : type → element → state → Except error state`
over an arbitrary card state `σ`; everything the claims assert about the
loop holds for every such semantics.  `render` first runs
`transform_card`/`validate_card` (from `decksmith/validate.py`, which is
not part of the sources; per spec §4.8 rendering always proceeds to the
element loop, so that step is modelled as the identity preprocessing
already applied to `elements`). -/

/-- The keys of the `draw_methods` dispatch table of `CardBuilder.render`
(card_builder.py lines 426–434). -/
def drawTypes : List String :=
  ["text", "image", "circle", "ellipse", "polygon", "regular-polygon", "rectangle"]

/-- Lookup in an element dict (`element.get(key)`). -/
def dictGet : List (String × Value) → String → Option Value
  | [], _ => none
  | (k, v) :: rest, key => if key = k then some v else dictGet rest key

/-- `element.get("type")`, when the element is a dict and the field is a
string (the shape `validate_card` admits). -/
def elementType (element : Value) : Option String :=
  match element with
  | .vDict d =>
    match dictGet d "type" with
    | some (.vStr t) => some t
    | _ => none
  | _ => none

/-- `logger.error(f"Error drawing element {element_type}: {e}")`
(card_builder.py line 442). -/
def drawErrorLog (t msg : String) : String :=
  "Error drawing element " ++ t ++ ": " ++ msg

/-- card_builder.py lines 436–444: the `for element in
self.spec.get("elements", [])` loop.  Elements whose `type` is missing
or not in `draw_methods` are skipped silently; a dispatched draw that
raises is caught, logged, and the loop continues with the next element.
Returns the final card state and the log lines in emission order. -/
def renderLoop {σ : Type} (draw : String → Value → σ → Except String σ)
    (st : σ) : List Value → σ × List String
  | [] => (st, [])
  | element :: rest =>
    match elementType element with
    | none => renderLoop draw st rest
    | some t =>
      if t ∈ drawTypes then
        match draw t element st with
        | .ok st' => renderLoop draw st' rest
        | .error msg =>
          let tail := renderLoop draw st rest
          (tail.1, drawErrorLog t msg :: tail.2)
      else renderLoop draw st rest

/-- card_builder.py lines 447–455: `CardBuilder.build` renders the card
and saves it.  The last component lists the save operations performed,
as `(path, saved card state)` pairs. -/
def buildCard {σ : Type} (draw : String → Value → σ → Except String σ)
    (st : σ) (elements : List Value) (outputPath : String) :
    (σ × List String) × List (String × σ) :=
  let rendered := renderLoop draw st elements
  (rendered, [(outputPath, rendered.1)])

/-! ### Text drawing — `CardBuilder._draw_text` vs `TextRenderer.render`

The canvas is modelled symbolically as the term of PIL image operations
that produced it, which is exactly what distinguishes drawing in place
(`self.draw.text`, a `drawText` node applied to the current card) from
layer compositing (`Image.alpha_composite(card, layer)` with the text
drawn on a fresh `Image.new("RGBA", card.size, (0,0,0,0))` layer).  Font
loading, wrapping and `textbbox` measurement are PIL-side effects shared
by both implementations; they are abstracted into the element's final
`text` and a `measure : xy → text → bbox` parameter standing for
`draw.textbbox`. -/

/-- A canvas as the history of PIL operations that built it. -/
inductive ImgExpr where
  | base
  | newLayer (w h : Nat)
  | drawText (target : ImgExpr) (pos : Int × Int) (text : String)
  | alphaComposite (lower upper : ImgExpr)
deriving DecidableEq

/-- A text element after `_prepare_text_element` (font resolution and
wrapping already folded into `text`). -/
structure TextElem where
  text : String
  position : Option (Int × Int)
  relative_to : Option (String × String)
  anchor : Option String
  id : Option String

/-- The card state seen by the text-drawing code: the canvas, its
dimensions, and `element_positions`. -/
structure CardCanvas where
  card : ImgExpr
  width : Nat
  height : Nat
  positions : Registry

/-- View a `(x1, y1, x2, y2)` bbox as the tuple passed to
`apply_anchor`. -/
def bboxToList (b : BBox) : List Int := [b.1, b.2.1, b.2.2.1, b.2.2.2]

/-- The position logic shared verbatim by `CardBuilder._draw_text` and
`TextRenderer.render`: the absolute position from
`_calculate_absolute_position`, shifted backward by the element's own
`anchor` point computed over the `textbbox` measured at `(0, 0)`. -/
def resolveDrawPos (measure : (Int × Int) → String → BBox) (positions : Registry)
    (e : TextElem) : Except String (Int × Int) :=
  match calculate_absolute_position positions e.relative_to e.position with
  | .error msg => .error msg
  | .ok originalPos =>
    match e.anchor with
    | none => .ok originalPos
    | some a =>
      match apply_anchor (bboxToList (measure (0, 0) e.text)) a with
      | .error msg => .error msg
      | .ok ap => .ok (originalPos.1 - ap.1, originalPos.2 - ap.2)

/-- card_builder.py lines 121–163: `CardBuilder._draw_text`, the method
`CardBuilder.render` dispatches for `type == "text"` (line 427).  It
computes the absolute position, applies the element's own anchor using a
`textbbox` measured at `(0, 0)`, then calls `self.draw.text(...)`
directly on `self.card`, and finally records the `textbbox` measured at
the draw position under the element's id. -/
def drawTextCB (measure : (Int × Int) → String → BBox) (st : CardCanvas)
    (e : TextElem) : Except String CardCanvas :=
  match resolveDrawPos measure st.positions e with
  | .error msg => .error msg
  | .ok pos =>
    let newPositions :=
      match e.id with
      | none => st.positions
      | some i => registryInsert st.positions i (measure pos e.text)
    .ok { st with card := .drawText st.card pos e.text, positions := newPositions }

/-- renderers/text.py lines 41–88: `TextRenderer.render`.  Same position
and anchor logic, but the text is drawn on a fresh fully-transparent
layer of the canvas size, which is then `Image.alpha_composite`d onto
the card. -/
def renderTextTR (measure : (Int × Int) → String → BBox) (st : CardCanvas)
    (e : TextElem) : Except String CardCanvas :=
  match resolveDrawPos measure st.positions e with
  | .error msg => .error msg
  | .ok pos =>
    let layer := ImgExpr.drawText (ImgExpr.newLayer st.width st.height) pos e.text
    let newPositions :=
      match e.id with
      | none => st.positions
      | some i => registryInsert st.positions i (measure pos e.text)
    .ok { st with card := .alphaComposite st.card layer, positions := newPositions }

/-- Recognises the canvas shape spec §4.5 requires of a text draw on a
`w × h` card: the previous canvas alpha-composited with a text draw on a
fresh full-canvas layer. -/
def isLayerCompositedText (w h : Nat) : ImgExpr → Bool
  | .alphaComposite _ (.drawText (.newLayer lw lh) _ _) => lw = w && lh = h
  | _ => false

/-! ### `decksmith/image_ops.py` — the `crop_top/bottom/left/right`
filters (duplicated as `CardBuilder._filter_crop_*` in
`card_builder.py`).

An RGBA raster is a width, a height and a pixel function; the claims
are about sizes and about which source pixel (or transparent padding)
ends up at each destination coordinate.  Coordinates are `Nat`s with
`(0, 0)` the top-left corner, as in PIL.  The filter branches convert to
RGBA first (`img.convert("RGBA")`), which on this model is the
identity. -/

/-- An RGBA pixel `(r, g, b, a)`. -/
abbrev RGBA := Nat × Nat × Nat × Nat

/-- The fully transparent pixel `(0, 0, 0, 0)`. -/
def transparentPx : RGBA := (0, 0, 0, 0)

/-- An RGBA raster image. -/
structure Img where
  width : Nat
  height : Nat
  pixel : Nat → Nat → RGBA

/-- `Image.new("RGBA", (w, h), color)`. -/
def imageNew (w h : Nat) (color : RGBA) : Img :=
  ⟨w, h, fun _ _ => color⟩

/-- `dest.paste(src, (px, py))`: overwrite the region of `dest` covered
by `src` placed with its top-left corner at `(px, py)`. -/
def pasteImg (dest src : Img) (px py : Nat) : Img :=
  { dest with
    pixel := fun x y =>
      if px ≤ x ∧ x < px + src.width ∧ py ≤ y ∧ y < py + src.height then
        src.pixel (x - px) (y - py)
      else dest.pixel x y }

/-- `img.crop((l, t, r, b))` for a crop box inside the image: the
`(r - l) × (b - t)` image whose pixel `(x, y)` is the source pixel
`(x + l, y + t)`. -/
def cropImg (img : Img) (l t r b : Nat) : Img :=
  ⟨r - l, b - t, fun x y => img.pixel (x + l) (y + t)⟩

/-- image_ops.py lines 39–46 / card_builder.py lines 180–186:
`_filter_crop_top(img, value)`. -/
def cropTop (img : Img) (value : Int) : Img :=
  if value < 0 then
    pasteImg (imageNew img.width (img.height + (-value).toNat) transparentPx)
      img 0 (-value).toNat
  else
    cropImg img 0 value.toNat img.width img.height

/-- image_ops.py lines 48–55 / card_builder.py lines 188–194:
`_filter_crop_bottom(img, value)`. -/
def cropBottom (img : Img) (value : Int) : Img :=
  if value < 0 then
    pasteImg (imageNew img.width (img.height + (-value).toNat) transparentPx) img 0 0
  else
    cropImg img 0 0 img.width (img.height - value.toNat)

/-- image_ops.py lines 57–64 / card_builder.py lines 196–202:
`_filter_crop_left(img, value)`. -/
def cropLeft (img : Img) (value : Int) : Img :=
  if value < 0 then
    pasteImg (imageNew (img.width + (-value).toNat) img.height transparentPx)
      img (-value).toNat 0
  else
    cropImg img value.toNat 0 img.width img.height

/-- image_ops.py lines 66–73 / card_builder.py lines 204–210:
`_filter_crop_right(img, value)`. -/
def cropRight (img : Img) (value : Int) : Img :=
  if value < 0 then
    pasteImg (imageNew (img.width + (-value).toNat) img.height transparentPx) img 0 0
  else
    cropImg img 0 0 (img.width - value.toNat) img.height

/-! ### `decksmith/main.py` `build` + `DeckBuilder.build_deck`

The filesystem and pandas are external; they are modelled by a
`BuildWorld` recording which files exist, the outcome of
`pd.read_csv` when it is attempted, and the per-row outcome of
`build_card`'s `try` body (macro resolution + `CardBuilder.build`).
The model returns the CLI exit status, the output files written into
the output directory, the `click.echo` lines, and the `logger.error`
lines, mirroring the control flow of `main.py` lines 50–87 and
`deck_builder.py` lines 84–116. -/

/-- How click obtained the `--data` option (`ctx.get_parameter_source`). -/
inductive ParamSource where
  | DEFAULT
  | COMMANDLINE
deriving DecidableEq

/-- The external world of one `decksmith build` invocation. -/
structure BuildWorld where
  /-- `Path(spec).exists()` -/
  specExists : Bool
  /-- `Path(data).exists()` -/
  dataExists : Bool
  /-- the `--data` path string (for error messages) -/
  dataPath : String
  /-- the `--spec` path string (for error messages) -/
  specPath : String
  /-- outcome of `pd.read_csv(self.csv_path, ...)` when reached:
  the parsed rows, or the exception message -/
  readCsv : Except String (List Row)
  /-- outcome of the `try` body of `build_deck.build_card` for row
  index `idx` (`resolve_macros` + `CardBuilder.build`): `ok` or the
  exception message -/
  rowBuild : Nat → Except String Unit

/-- What one invocation produced. -/
structure BuildOutcome where
  exitCode : Nat
  outputs : List String
  echoed : List String
  errorLogs : List String

/-- deck_builder.py lines 102–116: the per-row `build_card` bodies, in
row order (the thread pool runs them concurrently; their observable
file/log outcomes are order-independent and listed by row index).
Returns output files and error-log lines. -/
def buildRows (w : BuildWorld) (rows : List Row) : List String × List String :=
  (List.range rows.length).foldr
    (fun idx acc =>
      match w.rowBuild idx with
      | .ok _ => (("card_" ++ toString (idx + 1) ++ ".png") :: acc.1, acc.2)
      | .error e =>
        (acc.1, ("Error building card " ++ toString (idx + 1) ++ ": " ++ e) :: acc.2))
    ([], [])

/-- deck_builder.py lines 84–116: `DeckBuilder.build_deck(output_path)`.
`csvPath = none` models `self.csv_path` being `None` or pointing to a
missing file (the `not self.csv_path or not self.csv_path.exists()`
test).  Returns output files and error-log lines. -/
def build_deck (w : BuildWorld) (csvPath : Option Unit) : List String × List String :=
  match csvPath with
  | none => (["card_1.png"], [])
  | some _ =>
    match w.readCsv with
    | .error e => ([], ["Error reading CSV file: " ++ e])
    | .ok rows => buildRows w rows

/-- main.py lines 50–87: the `build` command.  `dataSource` is how click
obtained `--data`.  A raised `FileNotFoundError` is echoed with the
`(x)` prefix and exits 1; otherwise the deck is built and the command
exits 0. -/
def mainBuild (w : BuildWorld) (dataSource : ParamSource) : BuildOutcome :=
  if w.specExists = false then
    { exitCode := 1, outputs := [],
      echoed := ["(x) Spec file not found: " ++ w.specPath], errorLogs := [] }
  else if w.dataExists = false ∧ dataSource = ParamSource.COMMANDLINE then
    { exitCode := 1, outputs := [],
      echoed := ["(x) Data file not found: " ++ w.dataPath], errorLogs := [] }
  else
    let csvPath : Option Unit := if w.dataExists then some () else none
    let result := build_deck w csvPath
    { exitCode := 0, outputs := result.1, echoed := [], errorLogs := result.2 }

/-! ### Heap model of `MacroResolver.resolve` for the purity claim

Whether `resolve` mutates its input cannot be asked of the pure
embedding above, so the resolver is re-run over an explicit object
heap: addresses are indices into a list of heap cells, every Python
allocation (`value.replace`, a list or dict comprehension) appends a
fresh cell, and returning an existing object (`return row[key]`,
`return value` for scalars) returns its address unchanged.  The claim
is then that the call only appends: every pre-existing address still
holds exactly its old cell. -/

/-- One heap cell: a Python object reachable from a specification tree.
List and dict cells hold the addresses of their children. -/
inductive HeapCell where
  | hStr (s : String)
  | hInt (n : Int)
  | hBool (b : Bool)
  | hNull
  | hList (elems : List Nat)
  | hDict (entries : List (String × Nat))
deriving DecidableEq

/-- The heap; address `a` denotes `σ.get? a`, allocation appends. -/
abbrev Heap := List HeapCell

/-- A data row binding column names to addresses of their (scalar)
value objects. -/
abbrev HRow := List (String × Nat)

/-- `str(value)` on a heap cell (rows hold scalars, spec §3; composite
cells never occur in a row and get a fixed placeholder). -/
def pyStrCell : HeapCell → String
  | .hStr s => s
  | .hInt n => toString n
  | .hBool true => "True"
  | .hBool false => "False"
  | .hNull => "None"
  | .hList _ => "[...]"
  | .hDict _ => "{...}"

/-- The exact-match loop of `replace_in_value` over a heap row: the
address of the first column whose `%key%` token equals the stripped
string. -/
def findExactAddr (row : HRow) (stripped : String) : Option Nat :=
  match row with
  | [] => none
  | (key, b) :: rest =>
    if stripped = macroToken key then some b else findExactAddr rest stripped

/-- The substring-replacement loop of `replace_in_value` over a heap
row: `value.replace(f"%{key}%", str(val))` for every column. -/
def substAllHeap (σ : Heap) (row : HRow) (s : String) : String :=
  row.foldl
    (fun acc kb => pyReplace acc (macroToken kb.1) (pyStrCell (σ[kb.2]?.getD .hNull)))
    s

/-- A unit of work for the heap-level resolver: one value, the element
list of a list node, or the entry list of a dict node (the latter two
defunctionalise the Python comprehensions). -/
inductive HTask where
  | one (a : Nat)
  | many (elems : List Nat)
  | entries (kvs : List (String × Nat))
deriving DecidableEq

/-- The result shape matching each `HTask`. -/
inductive HTaskRes where
  | one (a : Nat)
  | many (elems : List Nat)
  | entries (kvs : List (String × Nat))
deriving DecidableEq

/-- `macro.py` lines 25–46 run over the heap.  `fuel` only bounds the
recursion depth (the Python recursion is structural on the tree; any
`fuel` large enough for the tree gives the run, and the theorems hold
for every `fuel`).  Returns the heap after the call and the result.

* a string cell: on exact match, return the row object's address
  unchanged; otherwise allocate the replaced string;
* scalar cells: `return value` — the same address, no allocation;
* list/dict cells: resolve the children left to right, then allocate
  the new list/dict cell. -/
def resolveHeap : Nat → Heap → HRow → HTask → Option (Heap × HTaskRes)
  | 0, _, _, _ => none
  | n + 1, σ, row, .one a =>
    match σ[a]? with
    | none => none
    | some (.hStr s) =>
      match findExactAddr row (pyStrip s) with
      | some b => some (σ, .one b)
      | none => some (σ ++ [.hStr (substAllHeap σ row s)], .one σ.length)
    | some (.hInt _) => some (σ, .one a)
    | some (.hBool _) => some (σ, .one a)
    | some .hNull => some (σ, .one a)
    | some (.hList elems) =>
      match resolveHeap n σ row (.many elems) with
      | some (σ', .many elems') => some (σ' ++ [.hList elems'], .one σ'.length)
      | _ => none
    | some (.hDict kvs) =>
      match resolveHeap n σ row (.entries kvs) with
      | some (σ', .entries kvs') => some (σ' ++ [.hDict kvs'], .one σ'.length)
      | _ => none
  | _ + 1, σ, _, .many [] => some (σ, .many [])
  | n + 1, σ, row, .many (a :: as) =>
    match resolveHeap n σ row (.one a) with
    | some (σ₁, .one a') =>
      match resolveHeap n σ₁ row (.many as) with
      | some (σ₂, .many as') => some (σ₂, .many (a' :: as'))
      | _ => none
    | _ => none
  | _ + 1, σ, _, .entries [] => some (σ, .entries [])
  | n + 1, σ, row, .entries ((k, a) :: kvs) =>
    match resolveHeap n σ row (.one a) with
    | some (σ₁, .one a') =>
      match resolveHeap n σ₁ row (.entries kvs) with
      | some (σ₂, .entries kvs') => some (σ₂, .entries ((k, a') :: kvs'))
      | _ => none
    | _ => none

/-- `MacroResolver.resolve(spec, row)` over the heap: resolve the value
at address `a`. -/
def resolveHeapValue (fuel : Nat) (σ : Heap) (row : HRow) (a : Nat) :
    Option (Heap × Nat) :=
  match resolveHeap fuel σ row (.one a) with
  | some (σ', .one a') => some (σ', a')
  | _ => none

/-- `σ'` is `σ` with zero or more cells appended: every address that
existed before still holds exactly its old cell.  This is the formal
sense in which a heap-threaded call "leaves its input completely
unmodified". -/
def HeapExtends (σ σ' : Heap) : Prop :=
  σ.length ≤ σ'.length ∧ ∀ i, i < σ.length → σ'[i]? = σ[i]?

/-! ## Theorems -/

/-! ### Helper lemmas -/

/-- The `f"%{key}%"` token determines the key. -/
theorem macroToken_inj {a b : String} (h : macroToken a = macroToken b) : a = b := by
  have hd : ("%" ++ a ++ "%").data = ("%" ++ b ++ "%").data := congrArg String.data h
  simp only [String.data_append, List.append_assoc] at hd
  have hd2 : a.data ++ "%".data = b.data ++ "%".data := List.append_cancel_left hd
  have hd3 : a.data = b.data := List.append_cancel_right hd2
  cases a; cases b; exact congrArg String.mk hd3

/-- With distinct column names, the exact-match loop returns the raw value
of the (unique) column whose token equals the stripped string. -/
theorem findExact_eq_some_of_mem (row : Row) (stripped : String) (k : String) (v : Value)
    (hnodup : (row.map Prod.fst).Nodup) (hmem : (k, v) ∈ row)
    (hpat : stripped = macroToken k) :
    MacroResolver.findExact row stripped = some v := by
  induction row with
  | nil => simp at hmem
  | cons kv rest ih =>
    obtain ⟨k', v'⟩ := kv
    simp only [List.map_cons, List.nodup_cons] at hnodup
    by_cases hk : stripped = macroToken k'
    · have hkk : k = k' := macroToken_inj (hpat ▸ hk)
      rcases List.mem_cons.mp hmem with hhead | htail
      · obtain ⟨hk1, hv1⟩ := Prod.mk.injEq .. ▸ hhead
        simp [MacroResolver.findExact, hk, hv1]
      · exact absurd (List.mem_map.mpr ⟨(k, v), htail, rfl⟩) (hkk ▸ hnodup.1)
    · have hkk : k ≠ k' := fun he => hk (he ▸ hpat)
      have htail : (k, v) ∈ rest := by
        rcases List.mem_cons.mp hmem with hhead | htail
        · exact absurd (congrArg Prod.fst hhead) hkk
        · exact htail
      simp only [MacroResolver.findExact, if_neg hk]
      exact ih hnodup.2 htail

/-- If no column token matches the stripped string, the exact-match loop
falls through. -/
theorem findExact_eq_none (row : Row) (stripped : String)
    (h : ∀ kv, kv ∈ row → stripped ≠ macroToken kv.1) :
    MacroResolver.findExact row stripped = none := by
  induction row with
  | nil => rfl
  | cons kv rest ih =>
    simp only [MacroResolver.findExact, if_neg (h kv (List.mem_cons_self ..))]
    exact ih fun kv' hkv' => h kv' (List.mem_cons_of_mem _ hkv')

/-! ### C10 — the two resolver copies agree -/

/-- The two copies of the exact-match loop agree. -/
theorem findExact_agree (row : Row) (s : String) :
    DeckBuilder.findExact row s = MacroResolver.findExact row s := by
  induction row with
  | nil => rfl
  | cons kv rest ih =>
    obtain ⟨k, v⟩ := kv
    simp only [DeckBuilder.findExact, MacroResolver.findExact, ih]

/-- The two copies of the substring-replacement loop agree. -/
theorem substituteAll_agree (row : Row) (s : String) :
    DeckBuilder.substituteAll row s = MacroResolver.substituteAll row s := rfl

mutual

/-- The two copies of `replace_in_value` agree on every value. -/
theorem resolverAgree_value (row : Row) :
    (v : Value) → DeckBuilder.replace_in_value row v = MacroResolver.replace_in_value row v
  | .vStr s => by
    simp only [DeckBuilder.replace_in_value, MacroResolver.replace_in_value,
      findExact_agree, substituteAll_agree]
  | .vInt _ => rfl
  | .vBool _ => rfl
  | .vNull => rfl
  | .vList l => by
    simp only [DeckBuilder.replace_in_value, MacroResolver.replace_in_value,
      resolverAgree_list row l]
  | .vDict d => by
    simp only [DeckBuilder.replace_in_value, MacroResolver.replace_in_value,
      resolverAgree_dict row d]

/-- The two list comprehensions agree. -/
theorem resolverAgree_list (row : Row) :
    (l : List Value) →
      DeckBuilder.replaceInListAux row l = MacroResolver.replaceInListAux row l
  | [] => rfl
  | v :: vs => by
    simp only [DeckBuilder.replaceInListAux, MacroResolver.replaceInListAux,
      resolverAgree_value row v, resolverAgree_list row vs]

/-- The two dict comprehensions agree. -/
theorem resolverAgree_dict (row : Row) :
    (d : List (String × Value)) →
      DeckBuilder.replaceInDictAux row d = MacroResolver.replaceInDictAux row d
  | [] => rfl
  | kv :: kvs => by
    simp only [DeckBuilder.replaceInDictAux, MacroResolver.replaceInDictAux,
      resolverAgree_value row kv.2, resolverAgree_dict row kvs]

end

/-- C10: for every specification tree and every data row, the two
independently embedded macro-resolver implementations,
`DeckBuilder.resolve_macros` (deck_builder.py lines 49–82) and
`MacroResolver.resolve` (macro.py lines 13–46), return identical
results. -/
theorem C10_resolverEquivalence (spec : Value) (row : Row) :
    DeckBuilder.resolve_macros spec row = MacroResolver.resolve spec row :=
  resolverAgree_value row spec

/-! ### C2 — macro substitution with type preservation -/

/-- C2: resolving a string value of the specification tree against a data
row with distinct column names: if the whitespace-trimmed string equals
`%column%` for some column exactly, the result is that column's raw row
value, type preserved; otherwise the result is the string obtained by
replacing every `%column%` occurrence by the column's value rendered as
text, column by column. -/
theorem C2_macroTypePreservation (row : Row) (s : String)
    (hnodup : (row.map Prod.fst).Nodup) :
    (∀ k v, (k, v) ∈ row → pyStrip s = macroToken k →
        MacroResolver.resolve (.vStr s) row = v)
  ∧ ((∀ kv, kv ∈ row → pyStrip s ≠ macroToken kv.1) →
        MacroResolver.resolve (.vStr s) row
          = .vStr (MacroResolver.substituteAll row s)) := by
  constructor
  · intro k v hmem hpat
    simp [MacroResolver.resolve, MacroResolver.replace_in_value,
      findExact_eq_some_of_mem row (pyStrip s) k v hnodup hmem hpat]
  · intro h
    simp [MacroResolver.resolve, MacroResolver.replace_in_value,
      findExact_eq_none row (pyStrip s) h]

/-- Witness for C2, on the spec's own example row `{"count": 5}`:
`"%count%"` resolves to the integer `5` (type preserved), while
`"Qty: %count%"` resolves to the string `"Qty: 5"`. -/
theorem C2_macroTypePreservation_witness :
    MacroResolver.resolve (.vStr "%count%") [("count", Value.vInt 5)] = Value.vInt 5
  ∧ MacroResolver.resolve (.vStr "Qty: %count%") [("count", Value.vInt 5)]
      = Value.vStr "Qty: 5" := by
  constructor
  · exact (C2_macroTypePreservation [("count", Value.vInt 5)] "%count%" (by simp)).1
      "count" (Value.vInt 5) (List.mem_cons_self ..) (by decide)
  · have h := (C2_macroTypePreservation [("count", Value.vInt 5)] "Qty: %count%"
      (by simp)).2 (by rintro kv hkv; rw [List.mem_singleton] at hkv; subst hkv; decide)
    exact h.trans rfl

/-! ### C8 — anchor geometry -/

/-- C8: `apply_anchor` returns the documented point of the box for each
of the nine anchor names — for a 4-tuple `(x1, y1, x2, y2)` and for a
2-tuple `(w, h)` originating at `(0, 0)` — with midpoints computed by
integer floor division (`Int.fdiv`, Python `//`); any other anchor name
raises `Unknown anchor`, and a box with neither 2 nor 4 components
raises the tuple-size `ValueError`. -/
theorem C8_applyAnchor (x1 y1 x2 y2 w h : Int) (box : List Int) (anchor : String) :
    (apply_anchor [x1, y1, x2, y2] "top-left" = .ok (x1, y1)
     ∧ apply_anchor [x1, y1, x2, y2] "top-center"
         = .ok (x1 + (x2 - x1).fdiv 2, y1)
     ∧ apply_anchor [x1, y1, x2, y2] "top-right" = .ok (x2, y1)
     ∧ apply_anchor [x1, y1, x2, y2] "middle-left"
         = .ok (x1, y1 + (y2 - y1).fdiv 2)
     ∧ apply_anchor [x1, y1, x2, y2] "center"
         = .ok (x1 + (x2 - x1).fdiv 2, y1 + (y2 - y1).fdiv 2)
     ∧ apply_anchor [x1, y1, x2, y2] "middle-right"
         = .ok (x2, y1 + (y2 - y1).fdiv 2)
     ∧ apply_anchor [x1, y1, x2, y2] "bottom-left" = .ok (x1, y2)
     ∧ apply_anchor [x1, y1, x2, y2] "bottom-center"
         = .ok (x1 + (x2 - x1).fdiv 2, y2)
     ∧ apply_anchor [x1, y1, x2, y2] "bottom-right" = .ok (x2, y2))
  ∧ (apply_anchor [w, h] "top-left" = .ok (0, 0)
     ∧ apply_anchor [w, h] "top-center" = .ok (w.fdiv 2, 0)
     ∧ apply_anchor [w, h] "top-right" = .ok (w, 0)
     ∧ apply_anchor [w, h] "middle-left" = .ok (0, h.fdiv 2)
     ∧ apply_anchor [w, h] "center" = .ok (w.fdiv 2, h.fdiv 2)
     ∧ apply_anchor [w, h] "middle-right" = .ok (w, h.fdiv 2)
     ∧ apply_anchor [w, h] "bottom-left" = .ok (0, h)
     ∧ apply_anchor [w, h] "bottom-center" = .ok (w.fdiv 2, h)
     ∧ apply_anchor [w, h] "bottom-right" = .ok (w, h))
  ∧ (anchor ∉ anchorNames →
      apply_anchor [x1, y1, x2, y2] anchor = .error ("Unknown anchor: " ++ anchor)
      ∧ apply_anchor [w, h] anchor = .error ("Unknown anchor: " ++ anchor))
  ∧ (box.length ≠ 2 → box.length ≠ 4 →
      apply_anchor box anchor = .error "Size must be a tuple of 2 or 4 integers.") := by
  refine ⟨?_, ?_, ?_, ?_⟩
  · refine ⟨?_, ?_, ?_, ?_, ?_, ?_, ?_, ?_, ?_⟩ <;>
      simp [apply_anchor, anchorPoint, Prod.ext_iff]
  · refine ⟨?_, ?_, ?_, ?_, ?_, ?_, ?_, ?_, ?_⟩ <;>
      simp [apply_anchor, anchorPoint, Prod.ext_iff]
  · intro hmem
    simp only [anchorNames, List.mem_cons, List.mem_singleton, not_or] at hmem
    obtain ⟨h1, h2, h3, h4, h5, h6, h7, h8, h9⟩ := hmem
    constructor <;> simp [apply_anchor, anchorPoint, h1, h2, h3, h4, h5, h6, h7, h8, h9]
  · intro hl2 hl4
    rcases box with _ | ⟨a, _ | ⟨b, _ | ⟨c, _ | ⟨d, _ | ⟨e, tl⟩⟩⟩⟩⟩
    · rfl
    · rfl
    · exact absurd rfl hl2
    · rfl
    · exact absurd rfl hl4
    · rfl

/-- Witness for C8: the spec's example box `(0, 0, 100, 60)` has center
`(50, 30)` and bottom-right `(100, 60)`; an unknown anchor and a 3-tuple
box raise the documented errors. -/
theorem C8_applyAnchor_witness :
    apply_anchor [0, 0, 100, 60] "center" = .ok (50, 30)
  ∧ apply_anchor [0, 0, 100, 60] "bottom-right" = .ok (100, 60)
  ∧ apply_anchor [0, 0, 100, 60] "centre" = .error "Unknown anchor: centre"
  ∧ apply_anchor [0, 0, 100] "center" = .error "Size must be a tuple of 2 or 4 integers." := by
  have h := C8_applyAnchor 0 0 100 60 100 60 [0, 0, 100] "centre"
  refine ⟨(h.1.2.2.2.2.1).trans rfl, (h.1.2.2.2.2.2.2.2.2).trans rfl, ?_, ?_⟩
  · exact (h.2.2.1 (by decide)).1
  · have h' := C8_applyAnchor 0 0 100 60 100 60 [0, 0, 100] "center"
    exact h'.2.2.2 (by decide) (by decide)

/-! ### C7 — position resolution -/

/-- C7: `_calculate_absolute_position` returns the element's `position`
verbatim (default `(0, 0)`) when `relative_to` is absent; errors when
the referenced id is not registered; and otherwise returns the anchor
point of the referenced bounding box plus the element's own `position`
offset. -/
theorem C7_positionResolution (reg : Registry) (pos : Option (Int × Int))
    (rid anchor : String) (bbox : BBox) (ap : Int × Int) :
    (calculate_absolute_position reg none pos = .ok (pos.getD (0, 0)))
  ∧ (lookupId reg rid = none →
      calculate_absolute_position reg (some (rid, anchor)) pos =
        .error ("Element with id '" ++ rid ++ "' not found for relative positioning."))
  ∧ (lookupId reg rid = some bbox →
      apply_anchor (bboxToList bbox) anchor = .ok ap →
      calculate_absolute_position reg (some (rid, anchor)) pos =
        .ok (ap.1 + (pos.getD (0, 0)).1, ap.2 + (pos.getD (0, 0)).2)) := by
  obtain ⟨bx1, by1, bx2, by2⟩ := bbox
  refine ⟨rfl, ?_, ?_⟩
  · intro hmiss
    simp [calculate_absolute_position, hmiss]
  · intro hfound hanchor
    obtain ⟨ax, ay⟩ := ap
    simp [calculate_absolute_position, hfound, bboxToList] at *
    simp [hanchor]

/-- Witness for C7, on the spec's example: element `a` recorded at
bounding box `(10, 10, 60, 60)`; an element with
`relative_to = ["a", "bottom-right"]` and `position = [5, 5]` resolves
to `(65, 65)`, and a reference to the unregistered id `b` errors. -/
theorem C7_positionResolution_witness :
    calculate_absolute_position [("a", (10, 10, 60, 60))]
      (some ("a", "bottom-right")) (some (5, 5)) = .ok (65, 65)
  ∧ calculate_absolute_position [("a", (10, 10, 60, 60))]
      (some ("b", "bottom-right")) (some (5, 5)) =
      .error "Element with id 'b' not found for relative positioning." := by
  have h := C7_positionResolution [("a", (10, 10, 60, 60))] (some (5, 5))
    "a" "bottom-right" (10, 10, 60, 60) (60, 60)
  have h' := C7_positionResolution [("a", (10, 10, 60, 60))] (some (5, 5))
    "b" "bottom-right" (10, 10, 60, 60) (60, 60)
  exact ⟨(h.2.2 rfl rfl).trans rfl, h'.2.1 rfl⟩

/-! ### C1 — per-element failure isolation in the render loop -/

/-- The render loop is compositional: it never aborts early, so running
it on `xs ++ ys` is running it on `xs` and continuing with `ys` from the
resulting state, concatenating the logs. -/
theorem renderLoop_append {σ : Type} (draw : String → Value → σ → Except String σ)
    (st : σ) (xs ys : List Value) :
    renderLoop draw st (xs ++ ys) =
      ((renderLoop draw (renderLoop draw st xs).1 ys).1,
       (renderLoop draw st xs).2 ++ (renderLoop draw (renderLoop draw st xs).1 ys).2) := by
  induction xs generalizing st with
  | nil => simp [renderLoop]
  | cons e rest ih =>
    rw [List.cons_append]
    cases ht : elementType e with
    | none => simp only [renderLoop, ht]; exact ih st
    | some t =>
      by_cases hmem : t ∈ drawTypes
      · simp only [renderLoop, ht, if_pos hmem]
        cases hd : draw t e st with
        | ok st' => exact ih st'
        | error msg => simp [ih st]
      · simp only [renderLoop, ht, if_neg hmem]; exact ih st

/-- A dispatched element whose draw raises contributes exactly one error
log line and leaves the card state unchanged. -/
theorem renderLoop_failStep {σ : Type} (draw : String → Value → σ → Except String σ)
    (st : σ) (es : List Value) (e : Value) (t msg : String)
    (htype : elementType e = some t) (hdisp : t ∈ drawTypes)
    (hfail : draw t e st = .error msg) :
    renderLoop draw st (e :: es) =
      ((renderLoop draw st es).1, drawErrorLog t msg :: (renderLoop draw st es).2) := by
  simp only [renderLoop, htype, if_pos hdisp, hfail]

/-- C1: in `CardBuilder.render`, an exception raised while drawing one
element is caught, logged, and rendering proceeds with the remaining
elements from the same card state; and `CardBuilder.build` saves the
card exactly once, after the full element list is exhausted, whatever
the failing element was.  Stated for every drawing semantics `draw`,
every card state type, and every decomposition `es1 ++ e :: es2` with a
failing element `e`. -/
theorem C1_elementFailureIsolation {σ : Type}
    (draw : String → Value → σ → Except String σ) (st : σ)
    (es1 es2 : List Value) (e : Value) (t msg out : String)
    (htype : elementType e = some t) (hdisp : t ∈ drawTypes)
    (hfail : ∀ s : σ, draw t e s = .error msg) :
    renderLoop draw st (es1 ++ e :: es2) =
      ((renderLoop draw (renderLoop draw st es1).1 es2).1,
       (renderLoop draw st es1).2
         ++ drawErrorLog t msg
           :: (renderLoop draw (renderLoop draw st es1).1 es2).2)
  ∧ buildCard draw st (es1 ++ e :: es2) out =
      (renderLoop draw st (es1 ++ e :: es2),
       [(out, (renderLoop draw (renderLoop draw st es1).1 es2).1)]) := by
  have hstep := renderLoop_failStep draw (renderLoop draw st es1).1 es2 e t msg
    htype hdisp (hfail _)
  have hmain : renderLoop draw st (es1 ++ e :: es2) =
      ((renderLoop draw (renderLoop draw st es1).1 es2).1,
       (renderLoop draw st es1).2
         ++ drawErrorLog t msg
           :: (renderLoop draw (renderLoop draw st es1).1 es2).2) := by
    rw [renderLoop_append draw st es1 (e :: es2), hstep]
  refine ⟨hmain, ?_⟩
  simp only [buildCard, hmain]

/-- Witness for C1: three elements where the middle (a dispatched
`circle`) always fails; both flanking elements are drawn, the failure is
logged, and the card — at state `2`, both successful draws applied — is
saved exactly once. -/
theorem C1_elementFailureIsolation_witness :
    renderLoop
        (fun t _ s => if t = "circle" then Except.error "boom" else Except.ok (s + 1))
        (0 : Nat)
        [Value.vDict [("type", Value.vStr "rectangle")],
         Value.vDict [("type", Value.vStr "circle")],
         Value.vDict [("type", Value.vStr "text")]] =
      (2, [drawErrorLog "circle" "boom"])
  ∧ buildCard
        (fun t _ s => if t = "circle" then Except.error "boom" else Except.ok (s + 1))
        (0 : Nat)
        [Value.vDict [("type", Value.vStr "rectangle")],
         Value.vDict [("type", Value.vStr "circle")],
         Value.vDict [("type", Value.vStr "text")]] "card_1.png" =
      ((2, [drawErrorLog "circle" "boom"]), [("card_1.png", 2)]) := by
  have h := C1_elementFailureIsolation
    (fun t _ s => if t = "circle" then Except.error "boom" else Except.ok (s + 1))
    (0 : Nat)
    [Value.vDict [("type", Value.vStr "rectangle")]]
    [Value.vDict [("type", Value.vStr "text")]]
    (Value.vDict [("type", Value.vStr "circle")])
    "circle" "boom" "card_1.png" rfl (by decide) (fun s => rfl)
  exact ⟨h.1.trans rfl, h.2.trans rfl⟩

/-! ### C3 — how text is put on the canvas -/

/-- C3 counterexample: for a concrete card state and text element,
`CardBuilder._draw_text` — the method `CardBuilder.render` dispatches
for `type == "text"` (card_builder.py line 427) — returns the card with
the text drawn directly in place on the canvas (`self.draw.text` on
`self.card`), not the alpha-composite of a fresh transparent layer that
the claim requires. -/
theorem C3_textLayering_counterexample :
    drawTextCB (fun _ _ => (0, 0, 10, 10))
        ⟨ImgExpr.base, 250, 350, []⟩
        ⟨"hi", some (3, 4), none, none, none⟩ =
      .ok ⟨ImgExpr.drawText ImgExpr.base (3, 4) "hi", 250, 350, []⟩
  ∧ isLayerCompositedText 250 350 (ImgExpr.drawText ImgExpr.base (3, 4) "hi") = false :=
  ⟨rfl, rfl⟩

/-- C3 (amended): the standalone `TextRenderer.render` draws the text
onto a fresh fully-transparent layer sized to the full canvas and
alpha-composites that layer onto the canvas; but the text path actually
dispatched by `CardBuilder.render`, `CardBuilder._draw_text`, draws the
text directly in place on the canvas and never produces the layered
shape. -/
theorem C3_textLayering (measure : (Int × Int) → String → BBox) (st : CardCanvas)
    (e : TextElem) (st' : CardCanvas) :
    (renderTextTR measure st e = .ok st' →
      ∃ p, st'.card =
          ImgExpr.alphaComposite st.card
            (ImgExpr.drawText (ImgExpr.newLayer st.width st.height) p e.text)
        ∧ isLayerCompositedText st.width st.height st'.card = true)
  ∧ (drawTextCB measure st e = .ok st' →
      ∃ p, st'.card = ImgExpr.drawText st.card p e.text
        ∧ isLayerCompositedText st.width st.height st'.card = false) := by
  constructor
  · intro h
    unfold renderTextTR at h
    cases hp : resolveDrawPos measure st.positions e with
    | error msg => rw [hp] at h; cases h
    | ok pos =>
      rw [hp] at h
      injection h with h'
      refine ⟨pos, ?_, ?_⟩
      · rw [← h']
      · rw [← h']; simp [isLayerCompositedText]
  · intro h
    unfold drawTextCB at h
    cases hp : resolveDrawPos measure st.positions e with
    | error msg => rw [hp] at h; cases h
    | ok pos =>
      rw [hp] at h
      injection h with h'
      refine ⟨pos, ?_, ?_⟩
      · rw [← h']
      · rw [← h']; simp [isLayerCompositedText]

/-- Witness for C3 (amended), at a concrete card state and element:
`TextRenderer.render` yields the layered composite, while the dispatched
`CardBuilder._draw_text` yields the direct in-place draw. -/
theorem C3_textLayering_witness :
    (∃ p, (ImgExpr.alphaComposite ImgExpr.base
            (ImgExpr.drawText (ImgExpr.newLayer 250 350) p "hi")) =
          ImgExpr.alphaComposite ImgExpr.base
            (ImgExpr.drawText (ImgExpr.newLayer 250 350) p "hi")
        ∧ isLayerCompositedText 250 350
            (ImgExpr.alphaComposite ImgExpr.base
              (ImgExpr.drawText (ImgExpr.newLayer 250 350) p "hi")) = true)
  ∧ (∃ p, (ImgExpr.drawText ImgExpr.base (3, 4) "hi") =
          ImgExpr.drawText ImgExpr.base p "hi"
        ∧ isLayerCompositedText 250 350 (ImgExpr.drawText ImgExpr.base (3, 4) "hi")
            = false) := by
  have h := C3_textLayering (fun _ _ => (0, 0, 10, 10))
    ⟨ImgExpr.base, 250, 350, []⟩ ⟨"hi", some (3, 4), none, none, none⟩
  constructor
  · obtain ⟨p, hp, hb⟩ := (h ⟨ImgExpr.alphaComposite ImgExpr.base
        (ImgExpr.drawText (ImgExpr.newLayer 250 350) (3, 4) "hi"), 250, 350, []⟩).1 rfl
    exact ⟨p, rfl, by simpa [hp] using hb⟩
  · obtain ⟨p, hp, hb⟩ := (h ⟨ImgExpr.drawText ImgExpr.base (3, 4) "hi",
        250, 350, []⟩).2 rfl
    exact ⟨p, by simpa using hp, by simpa [hp] using hb⟩

/-! ### C4 — missing data file: default fallback vs explicit failure -/

/-- C4: with the spec present and no file at the data path — if the data
path is the click default, the build exits 0 and produces exactly
`card_1.png` from the specification alone; if the data path was given on
the command line, the build raises `Data file not found`, exits 1, and
produces no output (no single-card fallback). -/
theorem C4_noDataFallback (w : BuildWorld) (hspec : w.specExists = true)
    (hdata : w.dataExists = false) :
    ((mainBuild w ParamSource.DEFAULT).exitCode = 0
     ∧ (mainBuild w ParamSource.DEFAULT).outputs = ["card_1.png"])
  ∧ ((mainBuild w ParamSource.COMMANDLINE).exitCode = 1
     ∧ (mainBuild w ParamSource.COMMANDLINE).outputs = []
     ∧ (mainBuild w ParamSource.COMMANDLINE).echoed
         = ["(x) Data file not found: " ++ w.dataPath]) := by
  refine ⟨⟨?_, ?_⟩, ⟨?_, ?_, ?_⟩⟩ <;>
    simp [mainBuild, hspec, hdata, build_deck]

/-- Witness for C4 at a concrete world (spec present, `deck.csv`
absent): the default data path falls back to a single `card_1.png`; an
explicit `--data` path fails with exit 1 and no output. -/
theorem C4_noDataFallback_witness :
    ((mainBuild ⟨true, false, "deck.csv", "deck.yaml", .ok [], fun _ => .ok ()⟩
        ParamSource.DEFAULT).exitCode = 0
     ∧ (mainBuild ⟨true, false, "deck.csv", "deck.yaml", .ok [], fun _ => .ok ()⟩
        ParamSource.DEFAULT).outputs = ["card_1.png"])
  ∧ ((mainBuild ⟨true, false, "deck.csv", "deck.yaml", .ok [], fun _ => .ok ()⟩
        ParamSource.COMMANDLINE).exitCode = 1
     ∧ (mainBuild ⟨true, false, "deck.csv", "deck.yaml", .ok [], fun _ => .ok ()⟩
        ParamSource.COMMANDLINE).outputs = []
     ∧ (mainBuild ⟨true, false, "deck.csv", "deck.yaml", .ok [], fun _ => .ok ()⟩
        ParamSource.COMMANDLINE).echoed = ["(x) Data file not found: deck.csv"]) := by
  have h := C4_noDataFallback
    ⟨true, false, "deck.csv", "deck.yaml", .ok [], fun _ => .ok ()⟩ rfl rfl
  exact ⟨⟨h.1.1, h.1.2⟩, ⟨h.2.1, h.2.2.1, h.2.2.2.trans rfl⟩⟩

/-! ### C5 — unparseable data file -/

/-- C5 counterexample: at a concrete world whose data file exists but
`pd.read_csv` raises, the CLI exit code is `0` — not the non-zero
status the claim requires — because `build_deck` catches the parse
error, logs it, and returns normally, after which `main.build` reports
success. -/
theorem C5_csvParseFailure_counterexample :
    (mainBuild ⟨true, true, "deck.csv", "deck.yaml", .error "ParserError", fun _ => .ok ()⟩
        ParamSource.COMMANDLINE).exitCode = 0
  ∧ (mainBuild ⟨true, true, "deck.csv", "deck.yaml", .error "ParserError", fun _ => .ok ()⟩
        ParamSource.COMMANDLINE).outputs = [] :=
  ⟨rfl, rfl⟩

/-- C5 (amended): if the data file exists but cannot be parsed, the deck
build aborts for that source — no cards are built and the parse failure
is logged with the `Error reading CSV file` message — but the CLI run
then reports success and exits with status zero (the failure is visible
in the error log only). -/
theorem C5_csvParseFailure (w : BuildWorld) (src : ParamSource) (msg : String)
    (hspec : w.specExists = true) (hdata : w.dataExists = true)
    (hcsv : w.readCsv = .error msg) :
    (mainBuild w src).outputs = []
  ∧ (mainBuild w src).errorLogs = ["Error reading CSV file: " ++ msg]
  ∧ (mainBuild w src).exitCode = 0 := by
  refine ⟨?_, ?_, ?_⟩ <;>
    simp [mainBuild, hspec, hdata, build_deck, hcsv]

/-- Witness for C5 (amended) at the counterexample's world. -/
theorem C5_csvParseFailure_witness :
    (mainBuild ⟨true, true, "deck.csv", "deck.yaml", .error "ParserError", fun _ => .ok ()⟩
        ParamSource.DEFAULT).outputs = []
  ∧ (mainBuild ⟨true, true, "deck.csv", "deck.yaml", .error "ParserError", fun _ => .ok ()⟩
        ParamSource.DEFAULT).errorLogs = ["Error reading CSV file: ParserError"]
  ∧ (mainBuild ⟨true, true, "deck.csv", "deck.yaml", .error "ParserError", fun _ => .ok ()⟩
        ParamSource.DEFAULT).exitCode = 0 := by
  have h := C5_csvParseFailure
    ⟨true, true, "deck.csv", "deck.yaml", .error "ParserError", fun _ => .ok ()⟩
    ParamSource.DEFAULT "ParserError" rfl rfl rfl
  exact ⟨h.1, h.2.1.trans rfl, h.2.2⟩

/-! ### C6 — crop filters: trim for nonnegative values, transparent
padding for negative values -/

/-- C6: for every image and integer `value`, `crop_top` with
`value ≥ 0` removes `value` pixel rows from the top edge; with
`value < 0` it returns the image extended by `|value|` transparent rows
at the top, the original content shifted down by `|value|`; and
`crop_bottom` / `crop_left` / `crop_right` behave symmetrically on
their edges. -/
theorem C6_cropFilters (img : Img) (v : Int) :
    (0 ≤ v →
      (cropTop img v).width = img.width
      ∧ (cropTop img v).height = img.height - v.toNat
      ∧ ∀ x y, (cropTop img v).pixel x y = img.pixel x (y + v.toNat))
  ∧ (v < 0 →
      (cropTop img v).width = img.width
      ∧ (cropTop img v).height = img.height + (-v).toNat
      ∧ (∀ x y, x < img.width → y < (-v).toNat →
          (cropTop img v).pixel x y = transparentPx)
      ∧ (∀ x y, x < img.width → y < img.height →
          (cropTop img v).pixel x (y + (-v).toNat) = img.pixel x y))
  ∧ (0 ≤ v →
      (cropBottom img v).width = img.width
      ∧ (cropBottom img v).height = img.height - v.toNat
      ∧ ∀ x y, (cropBottom img v).pixel x y = img.pixel x y)
  ∧ (v < 0 →
      (cropBottom img v).width = img.width
      ∧ (cropBottom img v).height = img.height + (-v).toNat
      ∧ (∀ x y, x < img.width → img.height ≤ y → y < img.height + (-v).toNat →
          (cropBottom img v).pixel x y = transparentPx)
      ∧ (∀ x y, x < img.width → y < img.height →
          (cropBottom img v).pixel x y = img.pixel x y))
  ∧ (0 ≤ v →
      (cropLeft img v).width = img.width - v.toNat
      ∧ (cropLeft img v).height = img.height
      ∧ ∀ x y, (cropLeft img v).pixel x y = img.pixel (x + v.toNat) y)
  ∧ (v < 0 →
      (cropLeft img v).width = img.width + (-v).toNat
      ∧ (cropLeft img v).height = img.height
      ∧ (∀ x y, x < (-v).toNat → y < img.height →
          (cropLeft img v).pixel x y = transparentPx)
      ∧ (∀ x y, x < img.width → y < img.height →
          (cropLeft img v).pixel (x + (-v).toNat) y = img.pixel x y))
  ∧ (0 ≤ v →
      (cropRight img v).width = img.width - v.toNat
      ∧ (cropRight img v).height = img.height
      ∧ ∀ x y, (cropRight img v).pixel x y = img.pixel x y)
  ∧ (v < 0 →
      (cropRight img v).width = img.width + (-v).toNat
      ∧ (cropRight img v).height = img.height
      ∧ (∀ x y, img.width ≤ x → x < img.width + (-v).toNat → y < img.height →
          (cropRight img v).pixel x y = transparentPx)
      ∧ (∀ x y, x < img.width → y < img.height →
          (cropRight img v).pixel x y = img.pixel x y)) := by
  refine ⟨?_, ?_, ?_, ?_, ?_, ?_, ?_, ?_⟩
  · intro hv
    unfold cropTop
    rw [if_neg (not_lt.mpr hv)]
    exact ⟨rfl, rfl, fun x y => rfl⟩
  · intro hv
    unfold cropTop
    rw [if_pos hv]
    refine ⟨rfl, rfl, ?_, ?_⟩
    · intro x y hx hy
      simp only [pasteImg, imageNew]
      rw [if_neg (by omega)]
    · intro x y hx hy
      simp only [pasteImg, imageNew]
      rw [if_pos (by omega), Nat.add_sub_cancel]
      simp
  · intro hv
    unfold cropBottom
    rw [if_neg (not_lt.mpr hv)]
    exact ⟨rfl, rfl, fun x y => rfl⟩
  · intro hv
    unfold cropBottom
    rw [if_pos hv]
    refine ⟨rfl, rfl, ?_, ?_⟩
    · intro x y hx hy1 hy2
      simp only [pasteImg, imageNew]
      rw [if_neg (by omega)]
    · intro x y hx hy
      simp only [pasteImg, imageNew]
      rw [if_pos (by omega)]
      simp
  · intro hv
    unfold cropLeft
    rw [if_neg (not_lt.mpr hv)]
    exact ⟨rfl, rfl, fun x y => rfl⟩
  · intro hv
    unfold cropLeft
    rw [if_pos hv]
    refine ⟨rfl, rfl, ?_, ?_⟩
    · intro x y hx hy
      simp only [pasteImg, imageNew]
      rw [if_neg (by omega)]
    · intro x y hx hy
      simp only [pasteImg, imageNew]
      rw [if_pos (by omega), Nat.add_sub_cancel]
      simp
  · intro hv
    unfold cropRight
    rw [if_neg (not_lt.mpr hv)]
    exact ⟨rfl, rfl, fun x y => rfl⟩
  · intro hv
    unfold cropRight
    rw [if_pos hv]
    refine ⟨rfl, rfl, ?_, ?_⟩
    · intro x y hx1 hx2 hy
      simp only [pasteImg, imageNew]
      rw [if_neg (by omega)]
    · intro x y hx hy
      simp only [pasteImg, imageNew]
      rw [if_pos (by omega)]
      simp

/-- Witness for C6 on the spec's example: `crop_top: -10` applied to a
100×100 all-white opaque image yields a 100×110 image, transparent at
row 4 and showing the original white content at row 14 (= original row
4 shifted down by 10). -/
theorem C6_cropFilters_witness :
    (cropTop ⟨100, 100, fun _ _ => (255, 255, 255, 255)⟩ (-10)).width = 100
  ∧ (cropTop ⟨100, 100, fun _ _ => (255, 255, 255, 255)⟩ (-10)).height = 110
  ∧ (cropTop ⟨100, 100, fun _ _ => (255, 255, 255, 255)⟩ (-10)).pixel 3 4 = (0, 0, 0, 0)
  ∧ (cropTop ⟨100, 100, fun _ _ => (255, 255, 255, 255)⟩ (-10)).pixel 3 14
      = (255, 255, 255, 255) := by
  have h := (C6_cropFilters ⟨100, 100, fun _ _ => (255, 255, 255, 255)⟩ (-10)).2.1
    (by decide)
  refine ⟨h.1, h.2.1.trans rfl, (h.2.2.1 3 4 (by decide) (by decide)).trans rfl, ?_⟩
  exact (h.2.2.2 3 4 (by decide) (by decide)).trans rfl

/-! ### C9 — macro resolution never mutates its input -/

theorem heapExtends_refl (σ : Heap) : HeapExtends σ σ :=
  ⟨le_refl _, fun _ _ => rfl⟩

theorem heapExtends_trans {σ₁ σ₂ σ₃ : Heap}
    (h₁ : HeapExtends σ₁ σ₂) (h₂ : HeapExtends σ₂ σ₃) : HeapExtends σ₁ σ₃ :=
  ⟨le_trans h₁.1 h₂.1, fun i hi => (h₂.2 i (lt_of_lt_of_le hi h₁.1)).trans (h₁.2 i hi)⟩

theorem heapExtends_append (σ : Heap) (l : List HeapCell) : HeapExtends σ (σ ++ l) :=
  ⟨by simp, fun i hi => List.getElem?_append_left hi⟩

/-- Every step of the heap-level resolver only allocates: whenever a
call returns, the resulting heap extends the input heap (every
pre-existing address holds its old cell). -/
theorem resolveHeap_frame :
    ∀ (fuel : Nat) (σ : Heap) (row : HRow) (t : HTask) (σ' : Heap) (r : HTaskRes),
      resolveHeap fuel σ row t = some (σ', r) → HeapExtends σ σ' := by
  intro fuel
  induction fuel with
  | zero => intro σ row t σ' r h; cases h
  | succ n ih =>
    intro σ row t σ' r h
    match t with
    | .one a =>
      cases hσa : σ[a]? with
      | none => simp [resolveHeap, hσa] at h
      | some cell =>
        cases cell with
        | hStr s =>
          simp only [resolveHeap, hσa] at h
          cases hfe : findExactAddr row (pyStrip s) with
          | some b =>
            simp only [hfe, Option.some.injEq, Prod.mk.injEq] at h
            obtain ⟨rfl, -⟩ := h
            exact heapExtends_refl σ
          | none =>
            simp only [hfe, Option.some.injEq, Prod.mk.injEq] at h
            obtain ⟨rfl, -⟩ := h
            exact heapExtends_append ..
        | hInt m =>
          simp only [resolveHeap, hσa, Option.some.injEq, Prod.mk.injEq] at h
          obtain ⟨rfl, -⟩ := h
          exact heapExtends_refl σ
        | hBool b =>
          simp only [resolveHeap, hσa, Option.some.injEq, Prod.mk.injEq] at h
          obtain ⟨rfl, -⟩ := h
          exact heapExtends_refl σ
        | hNull =>
          simp only [resolveHeap, hσa, Option.some.injEq, Prod.mk.injEq] at h
          obtain ⟨rfl, -⟩ := h
          exact heapExtends_refl σ
        | hList elems =>
          simp only [resolveHeap, hσa] at h
          cases hrec : resolveHeap n σ row (.many elems) with
          | none => simp [hrec] at h
          | some pair =>
            obtain ⟨σ₁, res⟩ := pair
            cases res with
            | one _ => simp [hrec] at h
            | many elems' =>
              simp only [hrec, Option.some.injEq, Prod.mk.injEq] at h
              obtain ⟨rfl, -⟩ := h
              exact heapExtends_trans (ih σ row (.many elems) σ₁ (.many elems') hrec)
                (heapExtends_append ..)
            | entries _ => simp [hrec] at h
        | hDict kvs =>
          simp only [resolveHeap, hσa] at h
          cases hrec : resolveHeap n σ row (.entries kvs) with
          | none => simp [hrec] at h
          | some pair =>
            obtain ⟨σ₁, res⟩ := pair
            cases res with
            | one _ => simp [hrec] at h
            | many _ => simp [hrec] at h
            | entries kvs' =>
              simp only [hrec, Option.some.injEq, Prod.mk.injEq] at h
              obtain ⟨rfl, -⟩ := h
              exact heapExtends_trans (ih σ row (.entries kvs) σ₁ (.entries kvs') hrec)
                (heapExtends_append ..)
    | .many [] =>
      simp only [resolveHeap, Option.some.injEq, Prod.mk.injEq] at h
      obtain ⟨rfl, -⟩ := h
      exact heapExtends_refl σ
    | .many (a :: as) =>
      simp only [resolveHeap] at h
      cases hrec1 : resolveHeap n σ row (.one a) with
      | none => simp [hrec1] at h
      | some pair1 =>
        obtain ⟨σ₁, res1⟩ := pair1
        cases res1 with
        | many _ => simp [hrec1] at h
        | entries _ => simp [hrec1] at h
        | one a' =>
          simp only [hrec1] at h
          cases hrec2 : resolveHeap n σ₁ row (.many as) with
          | none => simp [hrec2] at h
          | some pair2 =>
            obtain ⟨σ₂, res2⟩ := pair2
            cases res2 with
            | one _ => simp [hrec2] at h
            | entries _ => simp [hrec2] at h
            | many as' =>
              simp only [hrec2, Option.some.injEq, Prod.mk.injEq] at h
              obtain ⟨rfl, -⟩ := h
              exact heapExtends_trans (ih σ row (.one a) σ₁ (.one a') hrec1)
                (ih σ₁ row (.many as) σ₂ (.many as') hrec2)
    | .entries [] =>
      simp only [resolveHeap, Option.some.injEq, Prod.mk.injEq] at h
      obtain ⟨rfl, -⟩ := h
      exact heapExtends_refl σ
    | .entries ((k, a) :: kvs) =>
      simp only [resolveHeap] at h
      cases hrec1 : resolveHeap n σ row (.one a) with
      | none => simp [hrec1] at h
      | some pair1 =>
        obtain ⟨σ₁, res1⟩ := pair1
        cases res1 with
        | many _ => simp [hrec1] at h
        | entries _ => simp [hrec1] at h
        | one a' =>
          simp only [hrec1] at h
          cases hrec2 : resolveHeap n σ₁ row (.entries kvs) with
          | none => simp [hrec2] at h
          | some pair2 =>
            obtain ⟨σ₂, res2⟩ := pair2
            cases res2 with
            | one _ => simp [hrec2] at h
            | many _ => simp [hrec2] at h
            | entries kvs' =>
              simp only [hrec2, Option.some.injEq, Prod.mk.injEq] at h
              obtain ⟨rfl, -⟩ := h
              exact heapExtends_trans (ih σ row (.one a) σ₁ (.one a') hrec1)
                (ih σ₁ row (.entries kvs) σ₂ (.entries kvs') hrec2)

/-- C9: the heap-threaded run of `MacroResolver.resolve` is pure with
respect to its input: whenever it returns, every address that existed
before the call still holds exactly its old cell (the input
specification tree and the row are completely unmodified), the heap has
only grown, and for a dict specification the result is a newly built
structure — a freshly allocated address holding a new dict cell. -/
theorem C9_resolvePurity (fuel : Nat) (σ σ' : Heap) (row : HRow) (a a' : Nat)
    (h : resolveHeapValue fuel σ row a = some (σ', a')) :
    (σ.length ≤ σ'.length ∧ ∀ i, i < σ.length → σ'[i]? = σ[i]?)
  ∧ (∀ kvs, σ[a]? = some (.hDict kvs) →
      σ.length ≤ a' ∧ ∃ kvs', σ'[a']? = some (.hDict kvs')) := by
  constructor
  · cases hres : resolveHeap fuel σ row (.one a) with
    | none => rw [resolveHeapValue, hres] at h; cases h
    | some pair =>
      obtain ⟨σ₁, res⟩ := pair
      cases res with
      | many _ => rw [resolveHeapValue, hres] at h; cases h
      | entries _ => rw [resolveHeapValue, hres] at h; cases h
      | one a₁ =>
        rw [resolveHeapValue, hres] at h
        simp only [Option.some.injEq, Prod.mk.injEq] at h
        obtain ⟨rfl, -⟩ := h
        exact resolveHeap_frame fuel σ row (.one a) σ₁ (.one a₁) hres
  · intro kvs hdict
    cases fuel with
    | zero => rw [resolveHeapValue] at h; cases h
    | succ n =>
      rw [resolveHeapValue] at h
      simp only [resolveHeap, hdict] at h
      cases hrec : resolveHeap n σ row (.entries kvs) with
      | none => simp [hrec] at h
      | some pair =>
        obtain ⟨σ₁, res⟩ := pair
        cases res with
        | one _ => simp [hrec] at h
        | many _ => simp [hrec] at h
        | entries kvs' =>
          simp only [hrec, Option.some.injEq, Prod.mk.injEq] at h
          obtain ⟨rfl, rfl⟩ := h
          have hframe := resolveHeap_frame n σ row (.entries kvs) σ₁ (.entries kvs') hrec
          exact ⟨hframe.1, kvs', List.getElem?_concat_length ..⟩

/-- Witness for C9: a concrete three-cell heap holding the spec dict
`{"t": "hi %a%"}` at address 2, resolved against the row
`{"a": addr 0}` (where address 0 holds `7`).  The call allocates the
replaced string and the new dict at fresh addresses 3 and 4, and
addresses 0–2 still hold exactly their old cells. -/
theorem C9_resolvePurity_witness :
    resolveHeapValue 9 [.hInt 7, .hStr "hi %a%", .hDict [("t", 1)]] [("a", 0)] 2
      = some ([.hInt 7, .hStr "hi %a%", .hDict [("t", 1)], .hStr "hi 7",
               .hDict [("t", 3)]], 4)
  ∧ ([.hInt 7, .hStr "hi %a%", .hDict [("t", 1)], .hStr "hi 7",
      .hDict [("t", 3)]] : Heap)[0]? = some (.hInt 7)
  ∧ ([.hInt 7, .hStr "hi %a%", .hDict [("t", 1)], .hStr "hi 7",
      .hDict [("t", 3)]] : Heap)[1]? = some (.hStr "hi %a%")
  ∧ ([.hInt 7, .hStr "hi %a%", .hDict [("t", 1)], .hStr "hi 7",
      .hDict [("t", 3)]] : Heap)[2]? = some (.hDict [("t", 1)])
  ∧ (3 : Nat) ≤ 4
  ∧ ([.hInt 7, .hStr "hi %a%", .hDict [("t", 1)], .hStr "hi 7",
      .hDict [("t", 3)]] : Heap)[4]? = some (.hDict [("t", 3)]) := by
  have hrun : resolveHeapValue 9 [.hInt 7, .hStr "hi %a%", .hDict [("t", 1)]]
      [("a", 0)] 2
      = some ([.hInt 7, .hStr "hi %a%", .hDict [("t", 1)], .hStr "hi 7",
               .hDict [("t", 3)]], 4) := by decide
  have h := C9_resolvePurity 9 [.hInt 7, .hStr "hi %a%", .hDict [("t", 1)]]
    [.hInt 7, .hStr "hi %a%", .hDict [("t", 1)], .hStr "hi 7", .hDict [("t", 3)]]
    [("a", 0)] 2 4 hrun
  refine ⟨hrun, ?_, ?_, ?_, (h.2 [("t", 1)] rfl).1, ?_⟩
  · exact (h.1.2 0 (by decide)).trans rfl
  · exact (h.1.2 1 (by decide)).trans rfl
  · exact (h.1.2 2 (by decide)).trans rfl
  · rfl

end Decksmith
